import Mathlib

/-!
Shallow embedding of the `hyper_stack_manager` resolution core:

* `src/hyper_stack_manager/models.py`      — pydantic data model
* `src/hyper_stack_manager/manifest.py`    — `HSMProjectManifest` (selection state, `get_mode`)
* `src/hyper_stack_manager/core/sync_engine.py` — `SyncEngine.sync` and its two resolvers
* `src/hyper_stack_manager/core/validator.py`   — `Validator.check`
* `src/hyper_stack_manager/adapters/container_docker.py` — `DockerComposeAdapter.generate_config`

Python strings are Lean `String`s (logically lists of characters); Python
dicts whose insertion order is observable are association lists; values that
may be `None` are `Option`s. Python's `set` has no specified iteration
order (it depends on the interpreter's string hash seed), so every
`list(set(...))` in the source is embedded through an explicit
order parameter `f : List String → List String` constrained by
`ValidSetOrder` (right elements, no duplicates).
-/

namespace HSM

/-! ### Small Python-semantics helpers -/

/-- Association-list lookup: first binding wins, as in a Python dict
(whose keys are unique). -/
def alookup {α : Type} : List (String × α) → String → Option α
  | [], _ => none
  | (k, v) :: t, q => if k = q then some v else alookup t q

/-- Python dict assignment `d[k] = v`: an existing key keeps its insertion
position and gets the new value; a new key is appended. -/
def dictInsert {α : Type} (d : List (String × α)) (k : String) (v : α) : List (String × α) :=
  if d.any (fun p => p.1 = k) then d.map (fun p => if p.1 = k then (k, v) else p)
  else d ++ [(k, v)]

/-- Python truthiness of an optional string: `None` and `""` are falsy. -/
def pyTruthyS : Option String → Bool
  | some s => s ≠ ""
  | none => false

/-- Python `a or b` for an optional string `a` and a fallback `b`. -/
def pyOrS (a : Option String) (b : String) : String :=
  match a with
  | some s => if s = "" then b else s
  | none => b

/-- Python dict merge `{**a, **b}`: keys of `a` in their order (values
overridden by `b` where present), then the keys of `b` that are new. -/
def dictMerge (a b : List (String × String)) : List (String × String) :=
  a.map (fun p => (p.1, (alookup b p.1).getD p.2)) ++
    b.filter (fun p => (alookup a p.1).isNone)

/-- Replace every occurrence of a non-empty pattern, scanning left to right
(Python `str.replace` on the character-list level). -/
def replaceAux (pat rep : List Char) : List Char → List Char
  | [] => []
  | c :: rest =>
    if pat ≠ [] ∧ (c :: rest).take pat.length = pat then
      rep ++ replaceAux pat rep ((c :: rest).drop pat.length)
    else
      c :: replaceAux pat rep rest
termination_by l => l.length
decreasing_by
  · simp only [List.length_drop, List.length_cons]
    rename_i h
    have hp : 0 < pat.length := List.length_pos.mpr h.1
    omega
  · simp

/-- Substring occurrence test (Python `pat in s` on the character-list level). -/
def containsSub (pat : List Char) : List Char → Bool
  | [] => pat = []
  | c :: rest => decide ((c :: rest).take pat.length = pat) || containsSub pat rest

/-- Python `s.replace(pat, rep)`. -/
def pyReplace (s pat rep : String) : String := ⟨replaceAux pat.data rep.data s.data⟩

/-- Python `pat in s`. -/
def pyContains (s pat : String) : Bool := containsSub pat.data s.data

/-- Python `target.split(":", 1)` restricted to the information `sync` uses:
`none` when the string has no colon, otherwise the parts before and after the
first colon. -/
def splitOnceColonL : List Char → Option (List Char × List Char)
  | [] => none
  | c :: rest =>
    if c = ':' then some ([], rest)
    else (splitOnceColonL rest).map (fun p => (c :: p.1, p.2))

/-- String-level wrapper for `splitOnceColonL`. -/
def splitOnceColon (s : String) : Option (String × String) :=
  (splitOnceColonL s.data).map (fun p => (⟨p.1⟩, ⟨p.2⟩))

/-- Python `str(project_root / p)`: an absolute `p` stands alone, otherwise it
is joined under the root. -/
def pathJoin (root p : String) : String :=
  if p.startsWith "/" then p else root ++ "/" ++ p

/-- Python `Path.as_uri()` with percent-quoting abstracted away. -/
def asUri (p : String) : String := "file://" ++ p

/-! ### Data model (models.py) -/

/-- `Source` (models.py): one prod/dev source variant. -/
structure Source where
  type : String
  url : Option String := none
  ref : Option String := none
  path : Option String := none
  editable : Bool := false
  image : Option String := none
  container_name : Option String := none
  network_aliases : List String := []
  ports : List String := []
  volumes : List String := []
  env : List (String × String) := []
  dockerfile : Option String := none
deriving DecidableEq, Repr

/-- `ManifestSources` (models.py). -/
structure ManifestSources where
  prod : Option Source := none
  dev : Option Source := none
deriving DecidableEq, Repr

/-- One value of an `implies` map. In the Python source the value is `Any`:
when it is a dict, its parameter bag is `config.get("params", {})` (here the
`pdict` payload, with string-valued parameters); any non-dict value
contributes an empty bag. -/
inductive ImpliesCfg
  | pdict (params : List (String × String))
  | other
deriving DecidableEq, Repr

/-- `LibraryManifest` (models.py), restricted to the fields the sync engine
reads. `implies` maps a `"<kind>:<target>"` key to its configuration; an
absent `implies` key in the YAML and an empty map behave identically in
`sync` (both collect nothing). -/
structure LibraryManifest where
  sources : ManifestSources
  implies : List (String × ImpliesCfg) := []
deriving DecidableEq, Repr

/-- `DeploymentProfile` (models.py): only `mode` is read by the sync engine. -/
structure DeploymentProfile where
  mode : String := "managed"
deriving DecidableEq, Repr

/-- `ServiceManifest` (models.py), restricted to the fields the sync engine
reads. Note the model declares no `implies` field for services. -/
structure ServiceManifest where
  container_name : Option String := none
  network_aliases : List String := []
  ports : List String := []
  volumes : List String := []
  env : List (String × String) := []
  sources : ManifestSources
  deployment_profiles : List (String × DeploymentProfile) := []
deriving DecidableEq, Repr

/-- A raw registry group option (`<registry>/library_groups/<g>.yaml`,
`options` entry): `implies` is `some` exactly when the YAML mapping has an
`implies` key (`"implies" in opt`). -/
structure RegOption where
  name : String
  implies : Option (List (String × ImpliesCfg)) := none
deriving DecidableEq, Repr

/-- A raw registry group file, restricted to what `sync` reads. -/
structure RegGroup where
  options : List RegOption := []
deriving DecidableEq, Repr

/-- The registry directory: a name is "on disk" exactly when it is a key of
the corresponding association list (`libraries/`, `library_groups/`,
`services/`). -/
structure Registry where
  libraries : List (String × LibraryManifest) := []
  library_groups : List (String × RegGroup) := []
  services : List (String × ServiceManifest) := []
deriving DecidableEq, Repr

/-! ### Selection state (manifest.py, the `hsm.yaml` data managed by
`HSMProjectManifest`) -/

/-- A group's `selection` value: absent/null, a single string, or a list. -/
inductive Sel
  | unset
  | one (s : String)
  | many (xs : List String)
deriving DecidableEq, Repr

/-- A `groups` entry of the manifest data. -/
structure GroupCfg where
  selection : Sel := .unset
  mode : Option String := none
  profile : Option String := none
deriving DecidableEq, Repr

/-- A `standalone` entry: either a bare string or a mapping with a `name`
and optional `mode`/`profile` keys. Several probes in the source
(`isinstance(pkg, dict)`) distinguish the two shapes. -/
inductive Entry
  | str (name : String)
  | dict (name : String) (mode : Option String := none) (profile : Option String := none)
deriving DecidableEq, Repr

/-- Name of a standalone entry (the `libraries`/`services` properties of
`HSMProjectManifest` extract exactly this). -/
def Entry.name : Entry → String
  | .str n => n
  | .dict n _ _ => n

/-- The manifest data (`hsm.yaml`): library and service groups and
standalone entries, plus the generic `modes` section used as the final
fallback of `get_mode`. -/
structure HSMData where
  library_groups : List (String × GroupCfg) := []
  lib_standalone : List Entry := []
  service_groups : List (String × GroupCfg) := []
  svc_standalone : List Entry := []
  modes : List (String × String) := []
deriving DecidableEq, Repr

/-- Python `selection == name or (isinstance(selection, (list, tuple)) and
name in selection)`. -/
def selMatches (sel : Sel) (name : String) : Bool :=
  match sel with
  | .unset => false
  | .one s => s = name
  | .many xs => name ∈ xs

/-- The names a group contributes to a sync pass: a falsy selection (null,
`""`, `[]`) is skipped, a single string yields itself, a list yields its
members. -/
def selectionsOf : Sel → List String
  | .unset => []
  | .one s => if s = "" then [] else [s]
  | .many xs => xs

/-- Matches the standalone probe `isinstance(e, dict) and e.get("name") == name`. -/
def entryDictNamed (name : String) : Entry → Bool
  | .str _ => false
  | .dict n _ _ => n = name

/-- `HSMProjectManifest.get_mode` (manifest.py lines 301–338), translated
clause for clause:
1. a library group keyed by `name` with an explicit `mode`;
2. the first library group whose selection matches `name` — returning its
   mode, or `"prod"` when it has none (this clause short-circuits);
3. the first standalone library dict entry named `name` — its mode or `"prod"`;
4. a service group keyed by `name` with an explicit `mode`;
5. the first service group whose selection matches `name` — its mode or `"prod"`;
6. the first standalone service dict entry named `name` — its mode or `"prod"`;
7. the generic `modes` section, defaulting to `"prod"`. -/
def get_mode (m : HSMData) (name : String) : String :=
  match (alookup m.library_groups name).bind (fun g => g.mode) with
  | some md => md
  | none =>
  match m.library_groups.find? (fun p => selMatches p.2.selection name) with
  | some p => p.2.mode.getD "prod"
  | none =>
  match m.lib_standalone.find? (entryDictNamed name) with
  | some e => (match e with | .dict _ md _ => md | .str _ => none).getD "prod"
  | none =>
  match (alookup m.service_groups name).bind (fun g => g.mode) with
  | some md => md
  | none =>
  match m.service_groups.find? (fun p => selMatches p.2.selection name) with
  | some p => p.2.mode.getD "prod"
  | none =>
  match m.svc_standalone.find? (entryDictNamed name) with
  | some e => (match e with | .dict _ md _ => md | .str _ => none).getD "prod"
  | none => (alookup m.modes name).getD "prod"

/-- Source-variant choice shared by both resolvers:
`sources.dev if mode == "dev" and sources.dev else sources.prod`. -/
def pickSource (srcs : ManifestSources) (mode : String) : Option Source :=
  if mode = "dev" ∧ srcs.dev.isSome then srcs.dev else srcs.prod

/-! ### SyncEngine (core/sync_engine.py) -/

/-- `SyncEngine._resolve_package_requirement`: a missing registry file, a
missing effective source, and an unknown source type all yield `None`; a
`local` source becomes `"<name> @ file://<abs path>"` and a `git` source
becomes `"<name> @ git+<url>[@<ref>]"` (a null url prints as Python's
`"None"` inside the f-string). -/
def resolvePackageRequirement (reg : Registry) (root : String) (m : HSMData)
    (name : String) : Option String :=
  match alookup reg.libraries name with
  | none => none
  | some man =>
    let mode := get_mode m name
    match pickSource man.sources mode with
    | none => none
    | some s =>
      if s.type = "local" then
        some (name ++ " @ " ++ asUri (pathJoin root (s.path.getD "")))
      else if s.type = "git" then
        let req := name ++ " @ git+" ++ s.url.getD "None"
        if (s.ref.getD "") ≠ "" then some (req ++ "@" ++ s.ref.getD "") else some req
      else none

/-- The placeholder token `${HSM_MERGED_PARAMS.<key>}`. -/
def phKey (k : String) : String := "$\x7bHSM_MERGED_PARAMS." ++ k ++ "\x7d"

/-- The merged-parameter substitution block of
`SyncEngine._resolve_container_config` (lines 196–205): for each merged key
in order, every env value containing the key's placeholder has it replaced
by the comma-joined value list; other values are untouched. -/
def substMergedParams (mp : List (String × List String))
    (env : List (String × String)) : List (String × String) :=
  mp.foldl (fun env kv =>
    let ph := phKey kv.1
    let valStr := String.intercalate "," kv.2
    env.map (fun e => (e.1, if pyContains e.2 ph then pyReplace e.2 ph valStr else e.2))) env

/-- A generated docker-compose service mapping (the dict built at
sync_engine.py lines 207–230). `networks` holds the default-network alias
list when the `networks` key is present. -/
structure ServiceCfg where
  container_name : String
  environment : List (String × String)
  ports : List String
  volumes : List String
  networks : Option (List String) := none
  image : Option String := none
  build : Option (String × Option String) := none
deriving DecidableEq, Repr

/-- The profile-name search of `SyncEngine._resolve_container_config`
(lines 166–180): the first service group whose selection matches keeps its
profile, even a null one (the loop `break`s); only when that came out falsy
is the first standalone service dict entry with the name consulted. -/
def profileOf (m : HSMData) (name : String) : Option String :=
  let profile0 : Option String :=
    match m.service_groups.find? (fun p => selMatches p.2.selection name) with
    | some p => p.2.profile
    | none => none
  if pyTruthyS profile0 then profile0
  else
    match m.svc_standalone.find? (entryDictNamed name) with
    | some e => (match e with | .dict _ _ pf => pf | .str _ => none)
    | none => none

/-- The external-profile test of `SyncEngine._resolve_container_config`
(lines 182–186): a truthy profile name that names a deployment profile of
the manifest whose mode is `"external"`. -/
def isExternalFor (man : ServiceManifest) (pf : Option String) : Bool :=
  pyTruthyS pf &&
    (match alookup man.deployment_profiles (pf.getD "") with
     | some prof => prof.mode = "external"
     | none => false)

/-- `SyncEngine._resolve_container_config`, parameterized by the
set-iteration order `f` used for `list(set(...))`. Returns the
`{name: service_cfg}` entry appended to `containers_to_sync`, or `none`
for a missing registry file, an external deployment profile, or a missing
effective source. -/
def resolveContainerConfig (f : List String → List String) (reg : Registry)
    (root : String) (m : HSMData) (name : String)
    (mergedParams : Option (List (String × List String))) :
    Option (String × ServiceCfg) :=
  match alookup reg.services name with
  | none => none
  | some man =>
    if isExternalFor man (profileOf m name) then none
    else
      let mode := get_mode m name
      match pickSource man.sources mode with
      | none => none
      | some s =>
        let env0 := dictMerge man.env s.env
        let env := match mergedParams with
          | some mp => substMergedParams mp env0
          | none => env0
        let cfg : ServiceCfg :=
          { container_name := pyOrS s.container_name (pyOrS man.container_name name)
            environment := env
            ports := f (man.ports ++ s.ports)
            volumes := f (man.volumes ++ s.volumes)
            networks :=
              if man.network_aliases ≠ [] ∨ s.network_aliases ≠ [] then
                some (f (man.network_aliases ++ s.network_aliases))
              else none
            image := if s.type = "docker-image" then s.image else none
            build :=
              if s.type = "build" then
                some (pathJoin root (s.path.getD ""),
                      if (s.dockerfile.getD "") ≠ "" then s.dockerfile else none)
              else if s.type = "local" then
                some (pathJoin root (s.path.getD ""), none)
              else none }
        some (name, cfg)

/-- The running implication-collection map
`merged_implies_params : Dict[str, List[Dict]]` of `SyncEngine.sync`. -/
abbrev ImpliesAcc := List (String × List (List (String × String)))

/-- `SyncEngine.sync.collect_implies` (lines 33–41): append each target's
parameter bag (a non-dict config contributes an empty bag) to the target's
list, creating the entry on first sight. -/
def collectImplies (acc : ImpliesAcc) (implies : List (String × ImpliesCfg)) : ImpliesAcc :=
  implies.foldl (fun acc t =>
    let params := match t.2 with | .pdict ps => ps | .other => []
    dictInsert acc t.1 ((alookup acc t.1).getD [] ++ [params])) acc

/-- The per-target parameter merge of `SyncEngine.sync` step 4.5 (lines
100–106): union the value of every collected bag into per-key lists,
deduplicated, first-seen order. -/
def mergeParams (ps : List (List (String × String))) : List (String × List String) :=
  ps.foldl (fun acc p =>
    p.foldl (fun acc kv =>
      let cur := (alookup acc kv.1).getD []
      if kv.2 ∈ cur then acc else dictInsert acc kv.1 (cur ++ [kv.2])) acc) []

/-- Output of one sync pass: the `packages_to_sync` dict (the package
adapter receives its value list) and the `containers_to_sync` list (handed
to the container adapter). -/
structure SyncResult where
  packages : List (String × String)
  containers : List (String × ServiceCfg)
deriving DecidableEq, Repr

/-- Steps 1–2 of `SyncEngine.sync`: resolve libraries selected via groups
and standalone entries, threading `(packages_to_sync, merged_implies_params)`.
Implications are collected from the registry group option (step 1) or the
registry library manifest (step 2) only when the package resolved. -/
def syncLibraries (reg : Registry) (root : String) (m : HSMData) :
    List (String × String) × ImpliesAcc :=
  let st1 := m.library_groups.foldl (fun st gp =>
    (selectionsOf gp.2.selection).foldl (fun st pkg_name =>
      match resolvePackageRequirement reg root m pkg_name with
      | none => st
      | some req =>
        let pkgs := dictInsert st.1 pkg_name req
        let mip :=
          match alookup reg.library_groups gp.1 with
          | none => st.2
          | some g =>
            match g.options.find? (fun o => o.name = pkg_name) with
            | some o => match o.implies with
              | some imp => collectImplies st.2 imp
              | none => st.2
            | none => st.2
        (pkgs, mip)) st) (([] : List (String × String)), ([] : ImpliesAcc))
  (m.lib_standalone.map Entry.name).foldl (fun st pkg_name =>
    match resolvePackageRequirement reg root m pkg_name with
    | none => st
    | some req =>
      let pkgs := dictInsert st.1 pkg_name req
      let mip :=
        match alookup reg.libraries pkg_name with
        | none => st.2
        | some man => collectImplies st.2 man.implies
      (pkgs, mip)) st1

/-- Steps 3–4 of `SyncEngine.sync`: resolve services selected via groups
and standalone entries into `containers_to_sync`. -/
def syncServicesDirect (f : List String → List String) (reg : Registry)
    (root : String) (m : HSMData) : List (String × ServiceCfg) :=
  let c3 := m.service_groups.foldl (fun acc gp =>
    (selectionsOf gp.2.selection).foldl (fun acc contName =>
      match resolveContainerConfig f reg root m contName none with
      | none => acc
      | some c => acc ++ [c]) acc) []
  (m.svc_standalone.map Entry.name).foldl (fun acc contName =>
    match resolveContainerConfig f reg root m contName none with
    | none => acc
    | some c => acc ++ [c]) c3

/-- Step 4.5 of `SyncEngine.sync` (lines 94–111): each collected implication
target whose key has a `"service"` kind prefix is resolved once with its
merged parameters; keys without a colon or with another kind contribute
nothing. -/
def syncImplied (f : List String → List String) (reg : Registry) (root : String)
    (m : HSMData) (mip : ImpliesAcc) (acc : List (String × ServiceCfg)) :
    List (String × ServiceCfg) :=
  mip.foldl (fun acc tp =>
    match splitOnceColon tp.1 with
    | none => acc
    | some t =>
      if t.1 = "service" then
        match resolveContainerConfig f reg root m t.2 (some (mergeParams tp.2)) with
        | none => acc
        | some c => acc ++ [c]
      else acc) acc

/-- `SyncEngine.sync` (lines 23–122), with the external-adapter calls
replaced by returning the two computed artifacts. -/
def sync (f : List String → List String) (reg : Registry) (root : String)
    (m : HSMData) : SyncResult :=
  let st := syncLibraries reg root m
  let direct := syncServicesDirect f reg root m
  ⟨st.1, syncImplied f reg root m st.2 direct⟩

/-- `DockerComposeAdapter.generate_config` (container_docker.py lines
17–27): fold the `{name: cfg}` entries into the single `services` mapping of
`docker-compose.hsm.yml` (a repeated name keeps its first position, last
value wins). -/
def generateCompose (containers : List (String × ServiceCfg)) : List (String × ServiceCfg) :=
  containers.foldl (fun acc c => dictInsert acc c.1 c.2) []

/-! ### Validator (core/validator.py) -/

/-- A raised Python exception. -/
inductive PyError
  | attributeError (attr : String)
deriving DecidableEq, Repr

/-- Embeds the attribute access `self.manifest.<attr>` for the list-valued
attributes `Validator.check` reads. `HSMProjectManifest` (manifest.py)
defines `libraries` and `services` properties but no `packages` property, so
the access at validator.py line 25 raises `AttributeError` in Python. -/
def manifestNamesAttr (m : HSMData) (attr : String) : Except PyError (List String) :=
  if attr = "libraries" then .ok (m.lib_standalone.map Entry.name)
  else if attr = "services" then .ok (m.svc_standalone.map Entry.name)
  else .error (.attributeError attr)

/-- Embeds `self.manifest.<attr>` for the group-dict-valued attributes.
`HSMProjectManifest` defines `library_groups` and `service_groups` but no
`package_groups`, so validator.py line 31 would raise `AttributeError`. -/
def manifestGroupsAttr (m : HSMData) (attr : String) :
    Except PyError (List (String × GroupCfg)) :=
  if attr = "library_groups" then .ok m.library_groups
  else if attr = "service_groups" then .ok m.service_groups
  else .error (.attributeError attr)

/-- Embeds `self.manifest.data.get("services", {}).get("containers", [])`
(validator.py line 46). `HSMProjectManifest` writes standalone services
under the `standalone` key, never `containers`, so this read yields `[]`. -/
def dataServicesContainers (_ : HSMData) : List Entry := []

/-- Embeds `...get("services", {}).get("container_groups", {})`
(validator.py line 52). The manifest schema keeps service groups under the
`groups` key, so this read yields `{}`. -/
def dataServicesContainerGroups (_ : HSMData) : List (String × GroupCfg) := []

/-- `Validator.check` (core/validator.py lines 15–68), parameterized by a
registry-file-existence oracle `hasFile dir name` for
`(registry_path / dir / f"{name}.yaml").exists()` and by whether `hsm.yaml`
exists. On success it returns the collected error list (the Python code
raises a `ValueError` naming `errors` exactly when that list is nonempty). -/
def validatorCheck (hasFile : String → String → Bool) (m : HSMData)
    (manifestFileExists : Bool) : Except PyError (List String) := do
  let errors := if manifestFileExists then [] else ["Manifest file not found"]
  -- 2. Validate packages: `for pkg in self.manifest.packages` raises AttributeError
  let pkgs ← manifestNamesAttr m "packages"
  let errors := pkgs.foldl (fun es name =>
    if hasFile "packages" name then es
    else es ++ ["Package " ++ name ++ " not found in registry"]) errors
  -- 3. Validate package groups: `self.manifest.package_groups` would also raise
  let pgroups ← manifestGroupsAttr m "package_groups"
  let errors := pgroups.foldl (fun es gp =>
    let es :=
      if hasFile "package_groups" gp.1 then es
      else es ++ ["Package group " ++ gp.1 ++ " not found in registry"]
    (selectionsOf gp.2.selection).foldl (fun es s =>
      if hasFile "packages" s then es
      else es ++ ["Selected package " ++ s ++ " in group " ++ gp.1 ++
        " not found in registry"]) es) errors
  -- 4. Validate services, read from the legacy `containers`/`container_groups` keys
  let errors := (dataServicesContainers m).foldl (fun es e =>
    if hasFile "containers" e.name then es
    else es ++ ["Container " ++ e.name ++ " not found in registry"]) errors
  let errors := (dataServicesContainerGroups m).foldl (fun es gp =>
    let es :=
      if hasFile "container_groups" gp.1 then es
      else es ++ ["Container group " ++ gp.1 ++ " not found in registry"]
    (selectionsOf gp.2.selection).foldl (fun es s =>
      if hasFile "containers" s then es
      else es ++ ["Selected container " ++ s ++ " in group " ++ gp.1 ++
        " not found in registry"]) es) errors
  pure errors

/-! ### Shared lemmas -/

/-- What Python guarantees about iterating a `set` built from a string list:
the result enumerates exactly the distinct elements, in some order. -/
def ValidSetOrder (f : List String → List String) : Prop :=
  ∀ xs, (f xs).Nodup ∧ ∀ a, a ∈ f xs ↔ a ∈ xs

theorem validSetOrder_dedup : ValidSetOrder (fun xs => xs.dedup) :=
  fun xs => ⟨List.nodup_dedup xs, fun _ => List.mem_dedup⟩

theorem validSetOrder_dedup_reverse : ValidSetOrder (fun xs => xs.dedup.reverse) :=
  fun xs => ⟨(List.nodup_reverse).mpr (List.nodup_dedup xs),
    fun a => by rw [List.mem_reverse]; exact List.mem_dedup⟩

theorem splitOnceColon_service (s : String) :
    splitOnceColon ("service:" ++ s) = some ("service", s) := rfl

theorem splitOnceColon_library (s : String) :
    splitOnceColon ("library:" ++ s) = some ("library", s) := rfl

/-! ### Claim theorems -/

/-- Scenario for claim C3: component `x` is a standalone library entry with
an explicit `dev` mode and simultaneously the selection of library group
`g`, which carries an explicit `prod` mode. -/
def c3cex : HSMData :=
  { library_groups := [("g", { selection := .one "x", mode := some "prod" })],
    lib_standalone := [.dict "x" (some "dev") none] }

/-- C3 counterexample: the claimed precedence says a standalone entry with
mode `dev` beats a group with mode `prod`, but `get_mode` checks library
group selections before standalone entries and short-circuits, so the
result is `"prod"`, not `"dev"`. -/
theorem get_mode_standalone_dev_group_prod_cex :
    get_mode c3cex "x" = "prod" ∧ get_mode c3cex "x" ≠ "dev" := by
  constructor
  · rfl
  · intro h
    simp [c3cex, get_mode, alookup, selMatches, List.find?] at h

/-- C3 amended: for a library, an explicit mode on a group whose selection
matches the name wins over (and short-circuits before) any standalone
entry's mode — a matching group without an explicit mode already resolves
to `"prod"` — and with no overrides at all the result is the literal
`"prod"`. -/
theorem get_mode_precedence_amended (g x : String) (mg md : Option String)
    (hgx : g ≠ x) :
    get_mode { library_groups := [(g, { selection := .one x, mode := mg })],
               lib_standalone := [.dict x md none] } x = mg.getD "prod" ∧
    get_mode {} x = "prod" := by
  constructor
  · simp [get_mode, alookup, hgx, List.find?, selMatches]
  · rfl

theorem get_mode_precedence_amended_witness :
    get_mode { library_groups := [("g", { selection := .one "x", mode := some "prod" })],
               lib_standalone := [.dict "x" (some "dev") none] } "x" = "prod" ∧
    get_mode {} "x" = "prod" :=
  get_mode_precedence_amended "g" "x" (some "prod") (some "dev") (by decide)

/-- C5: `Validator.check` never reaches its error-aggregation logic on any
input: its first validation step reads `self.manifest.packages`, an
attribute `HSMProjectManifest` does not define, so it raises
`AttributeError` instead of reporting the referential-integrity errors
(e.g. the two `NotFound` errors for two nonexistent groups). -/
theorem validatorCheck_raises_attributeError
    (hasFile : String → String → Bool) (m : HSMData) (b : Bool) :
    validatorCheck hasFile m b = Except.error (.attributeError "packages") := rfl

/-- C6: a component name that is absent from the registry, or whose
definition has neither a dev nor a prod source variant, is silently skipped
by both resolvers (they return `None`, they cannot raise), and a sync pass
selecting only such a name completes with empty artifacts. -/
theorem resolvers_silently_omit_missing
    (f : List String → List String) (reg : Registry) (root : String)
    (m : HSMData) (name : String) (mp : Option (List (String × List String))) :
    (alookup reg.libraries name = none →
      resolvePackageRequirement reg root m name = none) ∧
    (∀ man, alookup reg.libraries name = some man →
      man.sources.dev = none → man.sources.prod = none →
      resolvePackageRequirement reg root m name = none) ∧
    (alookup reg.services name = none →
      resolveContainerConfig f reg root m name mp = none) ∧
    (∀ man, alookup reg.services name = some man →
      man.sources.dev = none → man.sources.prod = none →
      resolveContainerConfig f reg root m name mp = none) ∧
    (alookup reg.libraries name = none → alookup reg.services name = none →
      sync f reg root { lib_standalone := [.str name], svc_standalone := [.str name] }
        = ⟨[], []⟩) := by
  refine ⟨?_, ?_, ?_, ?_, ?_⟩
  · intro h
    simp [resolvePackageRequirement, h]
  · intro man h hdev hprod
    simp [resolvePackageRequirement, h, pickSource, hdev, hprod]
  · intro h
    simp [resolveContainerConfig, h]
  · intro man h hdev hprod
    simp [resolveContainerConfig, h, pickSource, hdev, hprod]
  · intro hlib hsvc
    have h1 : resolvePackageRequirement reg root
        { lib_standalone := [.str name], svc_standalone := [.str name] } name = none := by
      simp [resolvePackageRequirement, hlib]
    have h2 : resolveContainerConfig f reg root
        { lib_standalone := [.str name], svc_standalone := [.str name] } name none = none := by
      simp [resolveContainerConfig, hsvc]
    simp [sync, syncLibraries, syncServicesDirect, syncImplied, Entry.name, h1, h2]

theorem resolvers_silently_omit_missing_witness :
    resolvePackageRequirement {} "/p" {} "x" = none ∧
    resolveContainerConfig (fun xs => xs.dedup) {} "/p" {} "x" none = none ∧
    resolvePackageRequirement
      { libraries := [("y", { sources := {} })] } "/p" {} "y" = none ∧
    resolveContainerConfig (fun xs => xs.dedup)
      { services := [("y", { sources := {} })] } "/p" {} "y" none = none ∧
    sync (fun xs => xs.dedup) {} "/p"
      { lib_standalone := [.str "x"], svc_standalone := [.str "x"] } = ⟨[], []⟩ :=
  ⟨(resolvers_silently_omit_missing (fun xs => xs.dedup) {} "/p" {} "x" none).1 rfl,
   (resolvers_silently_omit_missing (fun xs => xs.dedup) {} "/p" {} "x" none).2.2.1 rfl,
   (resolvers_silently_omit_missing (fun xs => xs.dedup)
      { libraries := [("y", { sources := {} })] } "/p" {} "y" none).2.1 _ rfl rfl rfl,
   (resolvers_silently_omit_missing (fun xs => xs.dedup)
      { services := [("y", { sources := {} })] } "/p" {} "y" none).2.2.2.1 _ rfl rfl rfl,
   (resolvers_silently_omit_missing (fun xs => xs.dedup) {} "/p" {} "x" none).2.2.2.2 rfl rfl⟩

/-- C10: only implication targets with a `"service"` kind prefix are ever
materialized. A directly selected library `A` whose single `implies` entry
names a target key without a colon, or with a non-`"service"` kind, yields a
sync result whose container artifact is empty — the target contributes
nothing (and implied libraries are never added to the package artifact). -/
theorem sync_ignores_non_service_implies
    (f : List String → List String) (root A t rA : String)
    (sA : ManifestSources) (icfg : ImpliesCfg)
    (svcs : List (String × ServiceManifest))
    (libGroups : List (String × RegGroup))
    (hsplit : splitOnceColon t = none ∨
      ∃ p, splitOnceColon t = some p ∧ p.1 ≠ "service")
    (hA : resolvePackageRequirement
      { libraries := [(A, { sources := sA, implies := [(t, icfg)] })],
        library_groups := libGroups, services := svcs } root
      { lib_standalone := [.str A] } A = some rA) :
    sync f { libraries := [(A, { sources := sA, implies := [(t, icfg)] })],
             library_groups := libGroups, services := svcs } root
      { lib_standalone := [.str A] } = ⟨[(A, rA)], []⟩ := by
  simp only [sync, syncLibraries, syncServicesDirect, syncImplied, List.map,
    Entry.name, List.foldl, hA, alookup, if_pos rfl, collectImplies, dictInsert,
    List.any_nil, Bool.false_eq_true, if_neg, List.nil_append, Option.getD_none]
  rcases hsplit with h | ⟨p, hp, hne⟩
  · simp [h, dictInsert]
  · simp [hp, hne, dictInsert]

theorem sync_ignores_non_service_implies_witness :
    (splitOnceColon "library:b" = none ∨
      ∃ p, splitOnceColon "library:b" = some p ∧ p.1 ≠ "service") ∧
    sync (fun xs => xs.dedup)
      { libraries := [("a", { sources := { prod := some { type := "git", url := some "http://x/r" } },
                              implies := [("library:b", .other)] })] } "/proj"
      { lib_standalone := [.str "a"] } = ⟨[("a", "a @ git+http://x/r")], []⟩ :=
  ⟨Or.inr ⟨("library", "b"), by decide, by decide⟩,
   sync_ignores_non_service_implies (fun xs => xs.dedup) "/proj" "a" "library:b"
     "a @ git+http://x/r" { prod := some { type := "git", url := some "http://x/r" } }
     .other [] [] (Or.inr ⟨("library", "b"), by decide, by decide⟩) (by decide)⟩

/-- Scenario for C1: two standalone libraries `A`, `B`, each of whose
registry manifests implies the service target `T` with a one-key parameter
bag. -/
def c1reg (A B T k v1 v2 : String) (sA sB : ManifestSources)
    (manT : ServiceManifest) : Registry :=
  { libraries :=
      [(A, { sources := sA, implies := [("service:" ++ T, .pdict [(k, v1)])] }),
       (B, { sources := sB, implies := [("service:" ++ T, .pdict [(k, v2)])] })],
    services := [(T, manT)] }

/-- C1: when selected components `A` and `B` both imply target `T` with
parameter bags `{k: v1}` and `{k: v2}`, one sync pass merges the bags into
`{k: [v1, v2]}` (both values, deduplicated by the merge, first-seen order)
and materializes exactly one container entry for `T`, resolved against that
merged bag — not two instances and not only the last writer's value. -/
theorem sync_union_of_parameters
    (f : List String → List String) (root A B T k v1 v2 rA rB : String)
    (sA sB : ManifestSources) (manT : ServiceManifest) (cfgT : ServiceCfg)
    (hAB : A ≠ B) (hv : v1 ≠ v2)
    (hA : resolvePackageRequirement (c1reg A B T k v1 v2 sA sB manT) root
      { lib_standalone := [.str A, .str B] } A = some rA)
    (hB : resolvePackageRequirement (c1reg A B T k v1 v2 sA sB manT) root
      { lib_standalone := [.str A, .str B] } B = some rB)
    (hT : resolveContainerConfig f (c1reg A B T k v1 v2 sA sB manT) root
      { lib_standalone := [.str A, .str B] } T (some [(k, [v1, v2])]) = some (T, cfgT)) :
    mergeParams [[(k, v1)], [(k, v2)]] = [(k, [v1, v2])] ∧
    sync f (c1reg A B T k v1 v2 sA sB manT) root
      { lib_standalone := [.str A, .str B] } = ⟨[(A, rA), (B, rB)], [(T, cfgT)]⟩ := by
  have hv' : ¬(v2 = v1) := fun h => hv h.symm
  have hmerge : mergeParams [[(k, v1)], [(k, v2)]] = [(k, [v1, v2])] := by
    simp [mergeParams, alookup, dictInsert, hv']
  refine ⟨hmerge, ?_⟩
  simp only [c1reg] at hA hB hT ⊢
  simp only [sync, syncLibraries, syncServicesDirect, syncImplied,
    List.foldl, List.map, Entry.name, hA, hB, alookup, dictInsert, collectImplies,
    hAB, eq_self_iff_true, if_true, ite_true, if_false, ite_false,
    Option.getD_none, Option.getD_some, List.nil_append,
    splitOnceColon_service, hmerge, hT]
  simp [hAB, dictInsert, splitOnceColon_service, hT, hmerge]

/-- Scenario for C2: library `L` is selected both standalone and via library
group `Glib`; service `T` is selected via service group `Gsvc`, standalone, and
implied (with an empty parameter bag) by `L`. -/
def c2reg (L Glib T : String) (sL : ManifestSources) (manT : ServiceManifest) : Registry :=
  { libraries := [(L, { sources := sL, implies := [("service:" ++ T, .other)] })],
    library_groups := [(Glib, { options := [{ name := L }] })],
    services := [(T, manT)] }

/-- The selection state for the C2 scenario. -/
def c2m (L Glib T Gsvc : String) : HSMData :=
  { library_groups := [(Glib, { selection := .one L })],
    lib_standalone := [.str L],
    service_groups := [(Gsvc, { selection := .one T })],
    svc_standalone := [.str T] }

/-- An empty merged-parameter dict behaves like no merged parameters at all
(`if merged_params:` is false for `{}` in the source, and the substitution
loop over an empty dict is the identity). -/
theorem resolveContainerConfig_merged_nil (f : List String → List String)
    (reg : Registry) (root : String) (m : HSMData) (n : String) :
    resolveContainerConfig f reg root m n (some []) =
    resolveContainerConfig f reg root m n none := rfl

/-- C2: a component selected directly, via a group, and via implication at
the same time is still materialized exactly once per artifact: the package
dict holds one entry for `L`, and the generated compose `services` mapping
holds exactly one entry for `T` (the raw `containers_to_sync` list repeats
`T`, but `generate_config` folds it into a single keyed entry). -/
theorem sync_at_most_once_materialization
    (f : List String → List String) (root L Glib T Gsvc rL : String)
    (sL : ManifestSources) (manT : ServiceManifest) (cT : ServiceCfg)
    (hLne : L ≠ "") (hTne : T ≠ "")
    (hL : resolvePackageRequirement (c2reg L Glib T sL manT) root (c2m L Glib T Gsvc) L = some rL)
    (hT : resolveContainerConfig f (c2reg L Glib T sL manT) root (c2m L Glib T Gsvc) T none
      = some (T, cT)) :
    (sync f (c2reg L Glib T sL manT) root (c2m L Glib T Gsvc)).packages = [(L, rL)] ∧
    (sync f (c2reg L Glib T sL manT) root (c2m L Glib T Gsvc)).containers
      = [(T, cT), (T, cT), (T, cT)] ∧
    generateCompose ((sync f (c2reg L Glib T sL manT) root (c2m L Glib T Gsvc)).containers)
      = [(T, cT)] := by
  have hT' : resolveContainerConfig f (c2reg L Glib T sL manT) root (c2m L Glib T Gsvc) T
      (some (mergeParams [[]])) = some (T, cT) := by
    have : mergeParams [[]] = ([] : List (String × List String)) := rfl
    rw [this, resolveContainerConfig_merged_nil]
    exact hT
  have hsync : sync f (c2reg L Glib T sL manT) root (c2m L Glib T Gsvc)
      = ⟨[(L, rL)], [(T, cT), (T, cT), (T, cT)]⟩ := by
    simp only [c2reg, c2m] at hL hT hT' ⊢
    simp only [sync, syncLibraries, syncServicesDirect, syncImplied,
      selectionsOf, List.foldl, List.map, Entry.name, hL, hT, hT', alookup,
      dictInsert, collectImplies, List.find?, splitOnceColon_service,
      hLne, hTne, eq_self_iff_true, if_true, ite_true, if_false, ite_false,
      Option.getD_none, Option.getD_some, List.nil_append]
    simp [hLne, hTne, dictInsert, List.find?, hL, hT, hT', mergeParams]
  refine ⟨by rw [hsync], by rw [hsync], ?_⟩
  rw [hsync]
  simp [generateCompose, dictInsert]

/-- Scenario for C4's counterexample: selected library `a` implies
`library:b`; library `b`'s manifest implies `service:c`; service `c` is in
the registry. -/
def c4reg : Registry :=
  { libraries :=
      [("a", { sources := { prod := some { type := "git", url := some "http://x/r" } },
               implies := [("library:b", .other)] }),
       ("b", { sources := { prod := some { type := "git", url := some "http://x/r" } },
               implies := [("service:c", .other)] })],
    services := [("c", { sources := { prod := some { type := "docker-image", image := some "c:1" } } })] }

/-- C4 counterexample: selecting `a` materializes neither `b` (implied
library targets are never materialized) nor `c` (the implication of an
implied component is never followed): the sync pass yields no container at
all and only `a`'s own requirement — there is no transitive closure. -/
theorem sync_no_transitive_closure_cex :
    sync (fun xs => xs.dedup) c4reg "/proj" { lib_standalone := [.str "a"] }
      = ⟨[("a", "a @ git+http://x/r")], []⟩ := by decide

/-- Scenario for C4's amended claim: selected library `A` implies the
service target `B` with parameter bag `pb`; `B` is in the registry. -/
def c4amReg (A B : String) (sA : ManifestSources) (pb : List (String × String))
    (manB : ServiceManifest) : Registry :=
  { libraries := [(A, { sources := sA, implies := [("service:" ++ B, .pdict pb)] })],
    services := [(B, manB)] }

/-- C4 amended: implication expansion is single-level, not transitive:
selecting `A` materializes exactly the direct service-kind implication
targets of `A` (here `B`, resolved with `A`'s parameter bag) and nothing
further — implied components' own implications are never read (the service
data model declares no `implies` field at all), and no re-processing queue
exists. -/
theorem sync_single_level_expansion
    (f : List String → List String) (root A B rA : String)
    (sA : ManifestSources) (pb : List (String × String)) (manB : ServiceManifest)
    (cB : ServiceCfg)
    (hA : resolvePackageRequirement (c4amReg A B sA pb manB) root
      { lib_standalone := [.str A] } A = some rA)
    (hB : resolveContainerConfig f (c4amReg A B sA pb manB) root
      { lib_standalone := [.str A] } B (some (mergeParams [pb])) = some (B, cB)) :
    sync f (c4amReg A B sA pb manB) root { lib_standalone := [.str A] }
      = ⟨[(A, rA)], [(B, cB)]⟩ := by
  simp only [c4amReg] at hA hB ⊢
  simp only [sync, syncLibraries, syncServicesDirect, syncImplied,
    List.foldl, List.map, Entry.name, hA, alookup, dictInsert, collectImplies,
    eq_self_iff_true, if_true, ite_true, Option.getD_none,
    List.nil_append, splitOnceColon_service, hB]
  simp [dictInsert, hB]

/-- Concrete library sources used by witnesses: a prod git source. -/
def wGit : ManifestSources := { prod := some { type := "git", url := some "http://x/r" } }

/-- Concrete service manifest used by witnesses: a prod docker image. -/
def wSvcT : ServiceManifest :=
  { sources := { prod := some { type := "docker-image", image := some "t:1" } } }

/-- The service config `wSvcT` resolves to for a component named `t`. -/
def wCfgT : ServiceCfg :=
  { container_name := "t", environment := [], ports := [], volumes := [],
    networks := none, image := some "t:1", build := none }

theorem sync_union_of_parameters_witness :
    mergeParams [[("k", "v1")], [("k", "v2")]] = [("k", ["v1", "v2"])] ∧
    sync (fun xs => xs.dedup) (c1reg "a" "b" "t" "k" "v1" "v2" wGit wGit wSvcT) "/proj"
      { lib_standalone := [.str "a", .str "b"] }
      = ⟨[("a", "a @ git+http://x/r"), ("b", "b @ git+http://x/r")], [("t", wCfgT)]⟩ :=
  sync_union_of_parameters (fun xs => xs.dedup) "/proj" "a" "b" "t" "k" "v1" "v2"
    "a @ git+http://x/r" "b @ git+http://x/r" wGit wGit wSvcT wCfgT
    (by decide) (by decide) rfl rfl rfl

theorem sync_at_most_once_materialization_witness :
    (sync (fun xs => xs.dedup) (c2reg "l" "gl" "t" wGit wSvcT) "/proj"
      (c2m "l" "gl" "t" "gs")).packages = [("l", "l @ git+http://x/r")] ∧
    (sync (fun xs => xs.dedup) (c2reg "l" "gl" "t" wGit wSvcT) "/proj"
      (c2m "l" "gl" "t" "gs")).containers = [("t", wCfgT), ("t", wCfgT), ("t", wCfgT)] ∧
    generateCompose ((sync (fun xs => xs.dedup) (c2reg "l" "gl" "t" wGit wSvcT) "/proj"
      (c2m "l" "gl" "t" "gs")).containers) = [("t", wCfgT)] :=
  sync_at_most_once_materialization (fun xs => xs.dedup) "/proj" "l" "gl" "t" "gs"
    "l @ git+http://x/r" wGit wSvcT wCfgT (by decide) (by decide) rfl rfl

theorem sync_single_level_expansion_witness :
    sync (fun xs => xs.dedup) (c4amReg "a" "t" wGit [("k", "v1")] wSvcT) "/proj"
      { lib_standalone := [.str "a"] }
      = ⟨[("a", "a @ git+http://x/r")], [("t", wCfgT)]⟩ :=
  sync_single_level_expansion (fun xs => xs.dedup) "/proj" "a" "t"
    "a @ git+http://x/r" wGit [("k", "v1")] wSvcT wCfgT rfl rfl

theorem alookup_append {α : Type} (x y : List (String × α)) (k : String) :
    alookup (x ++ y) k =
      match alookup x k with
      | some v => some v
      | none => alookup y k := by
  induction x with
  | nil => simp [alookup]
  | cons p t ih =>
    by_cases h : p.1 = k
    · simp [alookup, h]
    · simpa [alookup, h] using ih

theorem alookup_map_val {α β : Type} (a : List (String × α)) (F : String → α → β)
    (k : String) :
    alookup (a.map (fun p => (p.1, F p.1 p.2))) k = (alookup a k).map (F k) := by
  induction a with
  | nil => simp [alookup]
  | cons p t ih =>
    by_cases h : p.1 = k
    · subst h
      simp [alookup]
    · simpa [alookup, h] using ih

theorem alookup_filter_isNone {α : Type} (a b : List (String × α)) (k : String) :
    alookup (b.filter (fun p => (alookup a p.1).isNone)) k =
      if (alookup a k).isNone then alookup b k else none := by
  induction b with
  | nil => simp [alookup]
  | cons p t ih =>
    by_cases hk : p.1 = k
    · subst hk
      by_cases hp : (alookup a p.1).isNone
      · simp [List.filter_cons, hp, alookup]
      · simp [List.filter_cons, hp, alookup, ih]
    · by_cases hp : (alookup a p.1).isNone
      · simp only [List.filter_cons, hp, if_true]
        simp [alookup, hk, ih]
      · simp only [List.filter_cons, hp]
        simp [alookup, hk, ih]

/-- Lookup semantics of the Python env merge `{**a, **b}`: the overriding
dict `b` wins key-for-key; `a` supplies the rest. -/
theorem alookup_dictMerge (a b : List (String × String)) (k : String) :
    alookup (dictMerge a b) k =
      match alookup b k with
      | some v => some v
      | none => alookup a k := by
  unfold dictMerge
  rw [alookup_append, alookup_map_val (F := fun q v => (alookup b q).getD v),
    alookup_filter_isNone]
  cases ha : alookup a k <;> cases hb : alookup b k <;> simp [ha, hb]

/-- Scenario registry for C8: one service `name` with manifest `man` whose
only source variant is the prod variant `s`. -/
def c8reg (name : String) (man : ServiceManifest) : Registry :=
  { services := [(name, man)] }

/-- C8: per-field merge rules of the resolved service spec: `ports`,
`volumes` and network aliases are the (set) union of common and variant
fields; `env` is common overridden key-for-key by the variant (variant
wins, no union of values); `container_name` falls back from variant to
common to the component name. -/
theorem resolveContainer_field_merge_rules
    (f : List String → List String) (root name : String) (m : HSMData)
    (man : ServiceManifest) (s : Source) (cfg : ServiceCfg)
    (hf : ValidSetOrder f)
    (hgrp : m.service_groups.find? (fun p => selMatches p.2.selection name) = none)
    (hstand : m.svc_standalone.find? (entryDictNamed name) = none)
    (hpick : pickSource man.sources (get_mode m name) = some s)
    (hres : resolveContainerConfig f (c8reg name man) root m name none = some (name, cfg)) :
    cfg.container_name = pyOrS s.container_name (pyOrS man.container_name name) ∧
    (∀ kk, alookup cfg.environment kk =
      match alookup s.env kk with
      | some v => some v
      | none => alookup man.env kk) ∧
    (∀ p, p ∈ cfg.ports ↔ p ∈ man.ports ∨ p ∈ s.ports) ∧
    (∀ p, p ∈ cfg.volumes ↔ p ∈ man.volumes ∨ p ∈ s.volumes) ∧
    (∀ al, cfg.networks = some al →
      ∀ a, a ∈ al ↔ a ∈ man.network_aliases ∨ a ∈ s.network_aliases) ∧
    (cfg.networks = none → man.network_aliases = [] ∧ s.network_aliases = []) := by
  simp [resolveContainerConfig, c8reg, alookup, profileOf, isExternalFor,
    hgrp, hstand, pyTruthyS, hpick] at hres
  subst hres
  refine ⟨rfl, ?_, ?_, ?_, ?_, ?_⟩
  · intro kk
    simpa using alookup_dictMerge man.env s.env kk
  · intro p
    simp only
    rw [(hf (man.ports ++ s.ports)).2 p, List.mem_append]
  · intro p
    simp only
    rw [(hf (man.volumes ++ s.volumes)).2 p, List.mem_append]
  · intro al hal a
    simp only at hal
    by_cases hne : man.network_aliases ≠ [] ∨ s.network_aliases ≠ []
    · rw [if_pos hne, Option.some_inj] at hal
      subst hal
      rw [(hf (man.network_aliases ++ s.network_aliases)).2 a, List.mem_append]
    · rw [if_neg hne] at hal
      exact absurd hal (by simp)
  · intro hal
    simp only at hal
    by_cases hne : man.network_aliases ≠ [] ∨ s.network_aliases ≠ []
    · rw [if_pos hne] at hal
      exact absurd hal (by simp)
    · push_neg at hne
      exact hne

/-- The variant source of the C8 witness scenario. -/
def w8src : Source :=
  { type := "docker-image", image := some "w:1", ports := ["443:443"], env := [("A", "2")] }

/-- Concrete C8 scenario from the spec example: common ports `["80:80"]`,
variant ports `["443:443"]`, common env `A=1`, variant env `A=2`. -/
def w8man : ServiceManifest :=
  { ports := ["80:80"], env := [("A", "1")], sources := { prod := some w8src } }

/-- The config the C8 witness scenario resolves to. -/
def w8cfg : ServiceCfg :=
  { container_name := "w", environment := [("A", "2")], ports := ["80:80", "443:443"],
    volumes := [], networks := none, image := some "w:1", build := none }

theorem resolveContainer_field_merge_rules_witness :
    w8cfg.container_name = "w" ∧ alookup w8cfg.environment "A" = some "2" ∧
    "80:80" ∈ w8cfg.ports ∧ "443:443" ∈ w8cfg.ports := by
  obtain ⟨h1, h2, h3, -, -, -⟩ :=
    resolveContainer_field_merge_rules (fun xs => xs.dedup) "/proj" "w" {} w8man
      w8src w8cfg validSetOrder_dedup rfl rfl rfl rfl
  exact ⟨by simpa [w8src, w8man] using h1, by simpa [w8src, w8man] using h2 "A",
    (h3 "80:80").mpr (by simp [w8src, w8man]), (h3 "443:443").mpr (by simp [w8src, w8man])⟩

theorem replaceAux_nil (pat rep : List Char) : replaceAux pat rep [] = [] := by
  simp [replaceAux]

theorem replaceAux_not_contains (pat rep : List Char) (l : List Char)
    (h : containsSub pat l = false) : replaceAux pat rep l = l := by
  induction l with
  | nil => simp [replaceAux]
  | cons c rest ih =>
    simp only [containsSub, Bool.or_eq_false_iff, decide_eq_false_iff_not] at h
    rw [replaceAux, if_neg]
    · rw [ih h.2]
    · intro hc
      exact h.1 hc.2

theorem replaceAux_head_match (pat rep tl : List Char) (hp : pat ≠ []) :
    replaceAux pat rep (pat ++ tl) = rep ++ replaceAux pat rep tl := by
  match hpat : pat, tl with
  | p :: ps, tl =>
    rw [List.cons_append, replaceAux]
    rw [if_pos]
    · congr 1
      congr 1
      rw [← List.cons_append, List.drop_left]
    · constructor
      · simp
      · rw [← List.cons_append, List.take_left]

theorem containsSub_self_of_ne_nil (pat : List Char) (hp : pat ≠ []) :
    containsSub pat pat = true := by
  match pat, hp with
  | c :: l, _ => simp [containsSub, List.take_length]

theorem phKey_data_ne_nil (k : String) : (phKey k).data ≠ [] :=
  List.cons_ne_nil '$' _

theorem pyContains_phKey_self (k : String) :
    pyContains (phKey k) (phKey k) = true :=
  containsSub_self_of_ne_nil (phKey k).data (phKey_data_ne_nil k)

theorem pyReplace_whole_token (k : String) (valStr : String) :
    pyReplace (phKey k) (phKey k) valStr = valStr := by
  have h := replaceAux_head_match (phKey k).data valStr.data [] (phKey_data_ne_nil k)
  rw [List.append_nil] at h
  show String.mk (replaceAux (phKey k).data valStr.data (phKey k).data) = valStr
  rw [h, replaceAux_nil, List.append_nil]

/-- The per-value effect of the substitution loop: fold the merged keys over
one env value. `substMergedParams` is exactly the keywise map of this
function over the env dict (proved in the C9 theorem). -/
def substVal (mp : List (String × List String)) (v : String) : String :=
  mp.foldl (fun v kv =>
    if pyContains v (phKey kv.1) then
      pyReplace v (phKey kv.1) (String.intercalate "," kv.2)
    else v) v

theorem substMergedParams_eq_map (mp : List (String × List String))
    (env : List (String × String)) :
    substMergedParams mp env = env.map (fun e => (e.1, substVal mp e.2)) := by
  induction mp generalizing env with
  | nil => simp [substMergedParams, substVal]
  | cons kv mp ih =>
    have h1 : substMergedParams (kv :: mp) env
        = substMergedParams mp (env.map (fun e => (e.1,
            if pyContains e.2 (phKey kv.1) then
              pyReplace e.2 (phKey kv.1) (String.intercalate "," kv.2)
            else e.2))) := rfl
    rw [h1, ih, List.map_map]
    rfl

theorem substVal_not_contains (mp : List (String × List String)) (v : String)
    (h : ∀ kv ∈ mp, pyContains v (phKey kv.1) = false) : substVal mp v = v := by
  induction mp with
  | nil => rfl
  | cons kv mp ih =>
    have h0 := h kv (List.mem_cons_self kv mp)
    have hstep : substVal (kv :: mp) v = substVal mp v := by
      simp [substVal, h0]
    rw [hstep]
    exact ih (fun kv2 h2 => h kv2 (List.mem_cons_of_mem _ h2))

theorem substVal_whole_token (k : String) (vs : List String) :
    substVal [(k, vs)] (phKey k) = String.intercalate "," vs := by
  simp [substVal, pyContains_phKey_self, pyReplace_whole_token]

/-- C9: placeholder-substitution scope of the generated env. The env
substitution applied to a resolved service maps each value independently
(`substVal`); a value containing no `$\x7bHSM_MERGED_PARAMS.<key>\x7d`
token for any merged key — in particular any other `$\x7bVAR\x7d` token,
ambient environment variables included — is left byte-identical; and a
value that is such a token for a merged key `k` becomes the comma-joined
accumulated value list for `k`. -/
theorem merged_params_substitution_scope (mp : List (String × List String))
    (env : List (String × String)) :
    substMergedParams mp env = env.map (fun e => (e.1, substVal mp e.2)) ∧
    (∀ v, (∀ kv ∈ mp, pyContains v (phKey kv.1) = false) → substVal mp v = v) ∧
    (∀ k vs, substVal [(k, vs)] (phKey k) = String.intercalate "," vs) :=
  ⟨substMergedParams_eq_map mp env,
   fun v h => substVal_not_contains mp v h,
   fun k vs => substVal_whole_token k vs⟩

theorem merged_params_substitution_scope_witness :
    substMergedParams [("k", ["v1", "v2"])] [("E", phKey "k"), ("F", "$\x7bOTHER\x7d")]
      = [("E", "v1,v2"), ("F", "$\x7bOTHER\x7d")] := by
  have h := merged_params_substitution_scope [("k", ["v1", "v2"])]
    [("E", phKey "k"), ("F", "$\x7bOTHER\x7d")]
  rw [h.1]
  simp only [List.map_cons, List.map_nil]
  rw [h.2.2 "k" ["v1", "v2"], h.2.1 "$\x7bOTHER\x7d" (by decide)]
  rfl

/-! ### C7: determinism and set-iteration order -/

/-- Scenario service for C7: common ports `["80:80"]`, variant ports
`["443:443"]`. -/
def c7svc : ServiceManifest :=
  { ports := ["80:80"],
    sources := { prod := some { type := "docker-image", image := some "p:1",
                                ports := ["443:443"] } } }

/-- Registry for the C7 scenario. -/
def c7reg : Registry := { services := [("p", c7svc)] }

/-- Selection state for the C7 scenario: one standalone service. -/
def c7m : HSMData := { svc_standalone := [.str "p"] }

/-- C7 counterexample: two runs of the resolution pass that differ only in
the interpreter's set-iteration order (both orders are behaviours Python's
`set` may exhibit, since its order is hash-seed dependent) produce different
artifacts: the generated `ports` list comes out in a different order. So the
output is not process-run independent: `list(set(...))` makes the
observable ordering depend on the hash seed. -/
theorem sync_set_order_dependent_cex :
    ValidSetOrder (fun xs => xs.dedup) ∧ ValidSetOrder (fun xs => xs.dedup.reverse) ∧
    sync (fun xs => xs.dedup) c7reg "/proj" c7m
      ≠ sync (fun xs => xs.dedup.reverse) c7reg "/proj" c7m :=
  ⟨validSetOrder_dedup, validSetOrder_dedup_reverse, by decide⟩

/-- Equal as sets: same members, order ignored. -/
def ListSetEq (a b : List String) : Prop := ∀ x, x ∈ a ↔ x ∈ b

/-- Set-equality of the optional alias lists under the `networks` key. -/
def OptAliasesEq : Option (List String) → Option (List String) → Prop
  | some a, some b => ListSetEq a b
  | none, none => True
  | _, _ => False

/-- Two generated service configs that agree on everything except possibly
the internal order of their set-derived fields (`ports`, `volumes`, network
aliases). -/
def CfgSetEq (c d : ServiceCfg) : Prop :=
  c.container_name = d.container_name ∧ c.environment = d.environment ∧
  ListSetEq c.ports d.ports ∧ ListSetEq c.volumes d.volumes ∧
  OptAliasesEq c.networks d.networks ∧ c.image = d.image ∧ c.build = d.build

/-- Relation between corresponding `containers_to_sync` entries. -/
def EntryRel (a b : String × ServiceCfg) : Prop := a.1 = b.1 ∧ CfgSetEq a.2 b.2

/-- `EntryRel` lifted to the optional result of the container resolver. -/
def OptEntryRel : Option (String × ServiceCfg) → Option (String × ServiceCfg) → Prop
  | some a, some b => EntryRel a b
  | none, none => True
  | _, _ => False

theorem listSetEq_of_validSetOrder {f g : List String → List String}
    (hf : ValidSetOrder f) (hg : ValidSetOrder g) (xs : List String) :
    ListSetEq (f xs) (g xs) := by
  intro x
  rw [(hf xs).2 x, (hg xs).2 x]

theorem resolveContainerConfig_setOrder_congr (f g : List String → List String)
    (hf : ValidSetOrder f) (hg : ValidSetOrder g) (reg : Registry) (root : String)
    (m : HSMData) (n : String) (mp : Option (List (String × List String))) :
    OptEntryRel (resolveContainerConfig f reg root m n mp)
      (resolveContainerConfig g reg root m n mp) := by
  unfold resolveContainerConfig
  cases halook : alookup reg.services n with
  | none => simp [OptEntryRel]
  | some man =>
    cases hext : isExternalFor man (profileOf m n) with
    | true => simp [hext, OptEntryRel]
    | false =>
      simp only [hext, Bool.false_eq_true, if_false, ite_false]
      cases hpick : pickSource man.sources (get_mode m n) with
      | none => simp [OptEntryRel]
      | some s =>
        refine ⟨rfl, rfl, rfl, listSetEq_of_validSetOrder hf hg _,
          listSetEq_of_validSetOrder hf hg _, ?_, rfl, rfl⟩
        by_cases hne : man.network_aliases ≠ [] ∨ s.network_aliases ≠ []
        · simp only [hne, if_true, ite_true]
          exact listSetEq_of_validSetOrder hf hg _
        · simp only [hne, if_false, ite_false]
          trivial

theorem foldl_resolve_rel (F G : String → Option (String × ServiceCfg))
    (h : ∀ n, OptEntryRel (F n) (G n)) (names : List String)
    (acc1 acc2 : List (String × ServiceCfg))
    (hacc : List.Forall₂ EntryRel acc1 acc2) :
    List.Forall₂ EntryRel
      (names.foldl (fun acc n => match F n with | none => acc | some c => acc ++ [c]) acc1)
      (names.foldl (fun acc n => match G n with | none => acc | some c => acc ++ [c]) acc2) := by
  induction names generalizing acc1 acc2 with
  | nil => exact hacc
  | cons n ns ih =>
    have hn := h n
    cases hF : F n with
    | none =>
      cases hG : G n with
      | none =>
        simp only [List.foldl_cons, hF, hG]
        exact ih _ _ hacc
      | some c =>
        rw [hF, hG] at hn
        exact absurd hn (by simp [OptEntryRel])
    | some c =>
      cases hG : G n with
      | none =>
        rw [hF, hG] at hn
        exact absurd hn (by simp [OptEntryRel])
      | some d =>
        rw [hF, hG] at hn
        simp only [List.foldl_cons, hF, hG]
        exact ih _ _ (List.rel_append hacc (List.Forall₂.cons hn List.Forall₂.nil))

theorem syncServicesDirect_setOrder_rel (f g : List String → List String)
    (hf : ValidSetOrder f) (hg : ValidSetOrder g) (reg : Registry) (root : String)
    (m : HSMData) :
    List.Forall₂ EntryRel (syncServicesDirect f reg root m)
      (syncServicesDirect g reg root m) := by
  unfold syncServicesDirect
  apply foldl_resolve_rel _ _
    (fun n => resolveContainerConfig_setOrder_congr f g hf hg reg root m n none)
  have base : ∀ (gl : List (String × GroupCfg)) (acc1 acc2 : List (String × ServiceCfg)),
      List.Forall₂ EntryRel acc1 acc2 →
      List.Forall₂ EntryRel
        (gl.foldl (fun acc gp => (selectionsOf gp.2.selection).foldl
          (fun acc contName => match resolveContainerConfig f reg root m contName none with
            | none => acc | some c => acc ++ [c]) acc) acc1)
        (gl.foldl (fun acc gp => (selectionsOf gp.2.selection).foldl
          (fun acc contName => match resolveContainerConfig g reg root m contName none with
            | none => acc | some c => acc ++ [c]) acc) acc2) := by
    intro gl
    induction gl with
    | nil => intro acc1 acc2 hacc; exact hacc
    | cons gp t ih =>
      intro acc1 acc2 hacc
      simp only [List.foldl_cons]
      exact ih _ _ (foldl_resolve_rel _ _
        (fun n => resolveContainerConfig_setOrder_congr f g hf hg reg root m n none)
        _ _ _ hacc)
  exact base m.service_groups [] [] List.Forall₂.nil

theorem syncImplied_setOrder_rel (f g : List String → List String)
    (hf : ValidSetOrder f) (hg : ValidSetOrder g) (reg : Registry) (root : String)
    (m : HSMData) (mip : ImpliesAcc) (acc1 acc2 : List (String × ServiceCfg))
    (hacc : List.Forall₂ EntryRel acc1 acc2) :
    List.Forall₂ EntryRel (syncImplied f reg root m mip acc1)
      (syncImplied g reg root m mip acc2) := by
  induction mip generalizing acc1 acc2 with
  | nil => exact hacc
  | cons tp t ih =>
    unfold syncImplied
    simp only [List.foldl_cons]
    show List.Forall₂ EntryRel (syncImplied f reg root m t _) (syncImplied g reg root m t _)
    cases hsp : splitOnceColon tp.1 with
    | none => exact ih _ _ hacc
    | some t2 =>
      by_cases hsvc : t2.1 = "service"
      · simp only [hsvc, if_true, ite_true]
        have hn := resolveContainerConfig_setOrder_congr f g hf hg reg root m t2.2
          (some (mergeParams tp.2))
        cases hF : resolveContainerConfig f reg root m t2.2 (some (mergeParams tp.2)) with
        | none =>
          cases hG : resolveContainerConfig g reg root m t2.2 (some (mergeParams tp.2)) with
          | none => exact ih _ _ hacc
          | some c =>
            rw [hF, hG] at hn
            exact absurd hn (by simp [OptEntryRel])
        | some c =>
          cases hG : resolveContainerConfig g reg root m t2.2 (some (mergeParams tp.2)) with
          | none =>
            rw [hF, hG] at hn
            exact absurd hn (by simp [OptEntryRel])
          | some d =>
            rw [hF, hG] at hn
            exact ih _ _ (List.rel_append hacc (List.Forall₂.cons hn List.Forall₂.nil))
      · simp only [hsvc, if_false, ite_false]
        exact ih _ _ hacc

/-- C7 amended: resolution is deterministic only up to the interpreter's
set-iteration order. With the same order (e.g. two successive calls in one
process) the artifacts are identical; for any two valid orders — e.g. two
process runs with different hash seeds — the package artifact is identical
and the container entries correspond one-to-one with the same names and
identical fields, except that `ports`, `volumes` and network aliases may be
reordered (they agree as sets). Byte-identical output across runs is
guaranteed only for the package-requirement artifact. -/
theorem sync_deterministic_up_to_set_order (f g : List String → List String)
    (hf : ValidSetOrder f) (hg : ValidSetOrder g) (reg : Registry) (root : String)
    (m : HSMData) :
    (sync f reg root m).packages = (sync g reg root m).packages ∧
    List.Forall₂ EntryRel (sync f reg root m).containers (sync g reg root m).containers := by
  constructor
  · rfl
  · exact syncImplied_setOrder_rel f g hf hg reg root m (syncLibraries reg root m).2 _ _
      (syncServicesDirect_setOrder_rel f g hf hg reg root m)

theorem sync_deterministic_up_to_set_order_witness :
    (sync (fun xs => xs.dedup) c7reg "/proj" c7m).packages
      = (sync (fun xs => xs.dedup.reverse) c7reg "/proj" c7m).packages ∧
    List.Forall₂ EntryRel (sync (fun xs => xs.dedup) c7reg "/proj" c7m).containers
      (sync (fun xs => xs.dedup.reverse) c7reg "/proj" c7m).containers :=
  sync_deterministic_up_to_set_order (fun xs => xs.dedup) (fun xs => xs.dedup.reverse)
    validSetOrder_dedup validSetOrder_dedup_reverse c7reg "/proj" c7m

end HSM
